import Mathlib

/-!
Verification development for the componentjs library (src/index.js).

The library implements a component lifecycle / supervision-tree protocol on
top of a standard event emitter.  We give a shallow embedding of the module
as a small operational semantics:

* Each JavaScript object (a `Component`, a `ComponentWrapper`, or a raw
  event emitter) is an `Obj` held in a global state `St`, addressed by its
  index `ObjId` in the allocation list.
* Event-handler closures created by the source are defunctionalized into the
  inductive `Handler`; `runH` gives each constructor exactly the meaning of
  the corresponding closure in `src/index.js`.
* The event emitter (the external `eventemitter` collaborator) has the
  standard Node semantics: `emit` dispatches synchronously to a snapshot of
  the listener list taken at emit time, in registration order, and a
  listener that throws aborts dispatch of the remaining listeners; the
  exception propagates to the emitter's caller.
* The `event-manager` collaborator (the Subscription Registry of the spec)
  is modelled by its contract: `subscribe(target, event, handler)` attaches
  the handler to the target and records the triple in the owner's ledger;
  `unsubscribe_all` removes every recorded handler from its target.
* Promises are modelled with synchronous settlement: each component's ready
  promise is a tri-state `RState` (`pending` / `ready` / `failed t e`, with
  `t` a global timestamp recording when the rejection happened), settled at
  most once, and `Promise.all` (in `wait_for_ready`) is the aggregation
  function `wfr`: it resolves when all members have resolved, and rejects
  with the earliest rejection among its members.
* JavaScript exceptions are `Except String`; state mutations performed
  before a throw are kept (JS exceptions do not roll back the heap).
* The mutually recursive emit/close cascade is given a fuel parameter; a
  run that exhausts its fuel returns the distinguished error "FUEL".  All
  theorems either supply enough fuel for the concrete run or are
  conditioned on the run having produced a result.
-/

namespace ComponentJS

abbrev ObjId := Nat

/-- Error payloads carried by the 'error' event and by promise rejections. -/
abbrev Err := Nat

/-- The event kinds used by the lifecycle protocol. -/
inductive EvKind
| close
| error
| warn
| info
deriving DecidableEq, Repr

/-- A 'warn' / 'info' event payload, as assembled by `warn` / `info` in the
source: `_.assign({ type: 'warn', source: this }, objectify(data))`. -/
structure WarnMsg where
  ptype : String
  source : Option ObjId := none
  origin : Option ObjId := none
  error : Option Err := none
  message : Option String := none
deriving DecidableEq, Repr

/-- Payload of an emitted event. -/
inductive Payload
| unit
| err (e : Err)
| warnP (m : WarnMsg)
| infoP (m : WarnMsg)
deriving DecidableEq, Repr

/-- Defunctionalized event-handler closures from src/index.js. -/
inductive Handler
/-- the `this.on('error', set_failed)` registration in the constructor -/
| selfFailed (c : ObjId)
/-- the closure `on_parent_close` in `bind_child_to_parent`: closes the child, catching
and logging any exception -/
| onParentClose (child : ObjId)
/-- the strength-dependent relay in `bind_child_to_parent`: closes the
parent when the child emits 'close', catching any exception -/
| upwardClose (p : ObjId)
/-- the relay `data => parent.emit('warn', data)` in `bind_child_to_parent` -/
| relayWarn (p : ObjId)
/-- the relay `data => parent.emit('info', data)` in `bind_child_to_parent` -/
| relayInfo (p : ObjId)
/-- the 'error' relay in `bind_child_to_parent`:
`parent.warn({ type: 'subcomponent-error', origin: child, error })` -/
| errorToWarn (p : ObjId) (child : ObjId)
/-- the registration `this.$on(obj, 'error', () => this.close())` in `ComponentWrapper` -/
| wrapperCloseOnError (w : ObjId)
/-- an external (user-installed) listener that throws -/
| userThrow
/-- an external (user-installed) listener with no effect on the model state -/
| userNoop
deriving DecidableEq, Repr

/-- Settlement state of a component's internal ready promise.  `failed t e`
records the global timestamp `t` at which the rejection happened, so that
"the first member to fail" is expressible. -/
inductive RState
| pending
| ready
| failed (t : Nat) (e : Err)
deriving DecidableEq, Repr

/-- Per-object state.  For a `Component` this collects the closure state of
the constructor (`components`, `bound`, `parent`, the ready promise, the
`closed` flag) together with its emitter listener list and its Subscription
Registry ledger.  A raw event emitter has `isComponent = false` and uses
only `listeners` (plus `hasClose` recording whether it exposes a `close`
method, probed by `bind_child_to_parent`). -/
structure Obj where
  isComponent : Bool := true
  hasClose : Bool := true
  children : List ObjId := []
  parent : Option ObjId := none
  bound : Bool := false
  rstate : RState := .pending
  closed : Bool := false
  listeners : List (EvKind × Handler) := []
  subs : List (ObjId × EvKind × Handler) := []
  target : Option ObjId := none
deriving DecidableEq, Repr

instance : Inhabited Obj := ⟨{}⟩

/-- Global state: the allocated objects, a clock used to timestamp promise
rejections, the chronological log of every event emission, and the log of
successful detachments performed by `unbind`. -/
structure St where
  objs : List Obj := []
  clock : Nat := 0
  trace : List (ObjId × EvKind × Payload) := []
  detachLog : List (ObjId × ObjId) := []
deriving DecidableEq, Repr

def St.obj (s : St) (c : ObjId) : Obj := (s.objs.get? c).getD {}

def St.setObj (s : St) (c : ObjId) (o : Obj) : St :=
  { s with objs := s.objs.set c o }

def St.mod (s : St) (c : ObjId) (f : Obj → Obj) : St :=
  s.setObj c (f (s.obj c))

/-- Outcome of a statement: the (possibly mutated) state together with
normal completion or a thrown JS exception. -/
def Res := St × Except String Unit

def ok (s : St) : Res := (s, .ok ())

def thr (s : St) (m : String) : Res := (s, .error m)

def Res.threw : Res → Bool
| (_, .error _) => true
| (_, .ok _) => false

def Res.st (r : Res) : St := r.1

/-- Registry subscribe: `owner.$on(tgt, k, h)` — attach `h` to `tgt` for
kind `k` and record the triple in `owner`'s ledger. -/
def subOn (s : St) (owner tgt : ObjId) (k : EvKind) (h : Handler) : St :=
  let s1 := s.mod tgt (fun o => { o with listeners := o.listeners ++ [(k, h)] })
  s1.mod owner (fun o => { o with subs := o.subs ++ [(tgt, k, h)] })

/-- Plain `tgt.on(k, h)` with no registry record. -/
def plainOn (s : St) (tgt : ObjId) (k : EvKind) (h : Handler) : St :=
  s.mod tgt (fun o => { o with listeners := o.listeners ++ [(k, h)] })

/-- Model of `removeAllListeners()` on an object. -/
def removeAll (s : St) (c : ObjId) : St :=
  s.mod c (fun o => { o with listeners := [] })

/-- Model of `events.unsubscribe_all()`: remove each recorded (target, kind,
handler) subscription from its target, then clear the ledger. -/
def unsubAll (s : St) (c : ObjId) : St :=
  let entries := (s.obj c).subs
  let s1 := entries.foldl
    (fun acc e => acc.mod e.1 (fun o => { o with listeners := o.listeners.erase e.2 })) s
  s1.mod c (fun o => { o with subs := [] })

/-- The `unbind` closure of a component `p`.  The argument is an `Option`
so that a JS `null`/`undefined` argument is `none`. -/
def unbind (s : St) (p : ObjId) (sub : Option ObjId) : Res :=
  match sub with
  | none => thr s "Parameter cannot be null or undefined"
  | some c =>
    if (s.obj p).children.contains c then
      let s1 := s.mod p (fun o => { o with children := o.children.erase c })
      let s2 := s1.mod c (fun o => { o with bound := false, parent := none })
      ok { s2 with detachLog := s2.detachLog ++ [(p, c)] }
    else thr s "Unbind failed, given component is not bound to this component"

/-- Model of `bind_child_to_parent(child, parent, weak)`: the four relay
registrations, in source order.  The downward close relay is attached to
the parent only when the child exposes `close`; it goes through the child's
registry when the child is a component (has `$on`) and through a plain `on`
otherwise.  The upward close relay is installed only on a strong edge. -/
def bindCTP (s : St) (child parent : ObjId) (weak : Bool) : St :=
  let s1 :=
    if (s.obj child).hasClose then
      if (s.obj child).isComponent then
        subOn s child parent .close (.onParentClose child)
      else
        plainOn s parent .close (.onParentClose child)
    else s
  let s2 := subOn s1 parent child .warn (.relayWarn parent)
  let s3 := subOn s2 parent child .info (.relayInfo parent)
  let s4 := subOn s3 parent child .error (.errorToWarn parent child)
  if weak then s4 else subOn s4 parent child .close (.upwardClose parent)

/-- Allocate a fresh `Component(name, is_ready)`: the constructor registers
`this.on('error', set_failed)` and, when `is_ready`, resolves the ready
promise immediately. -/
def addComponent (s : St) (isReady : Bool) : St × ObjId :=
  let id := s.objs.length
  let o : Obj :=
    { isComponent := true, hasClose := true,
      rstate := if isReady then .ready else .pending,
      listeners := [(.error, .selfFailed id)] }
  ({ s with objs := s.objs ++ [o] }, id)

/-- Allocate a raw (non-component) event emitter. -/
def addRawEmitter (s : St) (hasClose : Bool) : St × ObjId :=
  ({ s with objs := s.objs ++ [{ isComponent := false, hasClose := hasClose }] },
   s.objs.length)

/-- Model of `new ComponentWrapper(obj)`: a fresh already-ready component, wired to
`obj` with `bind_child_to_parent(obj, this, strong)`, plus the extra
close-on-error subscription, with `obj` recorded as the wrapper's target. -/
def addWrapper (s : St) (o : ObjId) : St × ObjId :=
  let p := addComponent s true
  let s1 := p.1
  let w := p.2
  let s2 := bindCTP s1 o w false
  let s3 := subOn s2 w o .error (.wrapperCloseOnError w)
  (s3.mod w (fun ob => { ob with target := some o }), w)

/-- The component path of `bind`: reject a double bind, otherwise add to
the child set, mark bound, record the parent pointer and wire the edge. -/
def bindComponentPath (s : St) (p c : ObjId) (weak : Bool) : Res :=
  if (s.obj c).bound then
    thr s "Subcomponent double-bound"
  else
    let s1 := s.mod p (fun o => { o with children := o.children ++ [c] })
    let s2 := s1.mod c (fun o => { o with bound := true, parent := some p })
    ok (bindCTP s2 c p weak)

/-- The `bind` closure of a component `p`.  A `null` argument throws; an
argument without the component contract is promoted to a `ComponentWrapper`
which is then bound (the recursive `bind(new ComponentWrapper(sub))` call in
the source passes no `weak` flag, i.e. binds strong). -/
def bindC (s : St) (p : ObjId) (sub : Option ObjId) (weak : Bool) : Res :=
  match sub with
  | none => thr s "Parameter cannot be null or undefined"
  | some c =>
    if (s.obj c).isComponent then
      bindComponentPath s p c weak
    else
      let q := addWrapper s c
      bindComponentPath q.1 p q.2 false

/-- Model of `set_ready` / `ready()`: resolve the ready promise; a no-op if it has
already settled. -/
def setReady (s : St) (c : ObjId) : St :=
  match (s.obj c).rstate with
  | .pending => s.mod c (fun o => { o with rstate := .ready })
  | _ => s

/-- The error value carried by a payload (a raw 'error' event always
carries one in this model). -/
def payloadErr : Payload → Err
| .err e => e
| _ => 0

/-- Exception semantics of a `finally` block: an exception raised in the
`finally` body supersedes the one from the guarded body. -/
def mergeFinally : Except String Unit → Except String Unit → Except String Unit
| r, .ok _ => r
| _, .error m => .error m

/-- The cleanup part of `close` (the `finally` block): detach from the
parent when bound, then remove all own listeners and release all own
registry subscriptions.  A throw from `unbind` aborts the remaining
cleanup, as in the source. -/
def cleanup (s : St) (c : ObjId) : Res :=
  match (s.obj c).parent with
  | some p =>
    match unbind s p (some c) with
    | (s1, .ok _) => ok (unsubAll (removeAll s1 c) c)
    | e => e
  | none => ok (unsubAll (removeAll s c) c)

/-- A `try { r } catch (err) { console.error(...) }` wrapper. -/
def swallow (r : Res) : Res := ok r.1

/-- Builds the payload assembled by `warn(data)` for an object-shaped
`data`: `_.assign({ type: 'warn', source: this }, data)` — a `type` field in
`data` overrides the default, `source` is always the emitting component. -/
def mkWarnMsg (c : ObjId) (ptype : Option String) (origin : Option ObjId)
    (error : Option Err) (message : Option String) : WarnMsg :=
  { ptype := ptype.getD "warn", source := some c,
    origin := origin, error := error, message := message }

/-- A pending call of the mutually recursive emit/close machinery,
defunctionalized so the whole cluster is one structurally recursive (and
hence kernel-computable) interpreter over fuel. -/
inductive Job
/-- an `emit(event, payload)` call on a target object -/
| emit (tgt : ObjId) (k : EvKind) (pl : Payload)
/-- dispatching the remaining part of an emit-time listener snapshot -/
| dispatch (hs : List Handler) (pl : Payload)
/-- invoking one listener -/
| handler (h : Handler) (pl : Payload)
/-- a `set_failed(err)` call on a component -/
| fail (c : ObjId) (e : Err)
/-- a `close()` call on a component -/
| close (c : ObjId)
deriving DecidableEq, Repr

/-- The emit/close interpreter.
* `emit`: record the emission, snapshot the listeners registered for this
  kind at emit time, and dispatch to them in registration order; a
  listener that throws aborts the remaining dispatch and the exception
  propagates to the emitter.
* `handler`: the meaning of each defunctionalized closure of src/index.js.
* `fail` (`set_failed(err)`): reject the ready promise when it is still
  pending (recording the rejection timestamp), then `close()` self.
* `close`: a no-op once closed; otherwise set the closed flag, emit
  'close' and — in a `finally` — detach from the parent, remove all own
  listeners and release all own registry subscriptions. -/
def run : Nat → St → Job → Res
| 0, s, _ => thr s "FUEL"
| Nat.succ f, s, .emit tgt k pl =>
  let hs := ((s.obj tgt).listeners.filter (fun e => e.1 = k)).map (fun e => e.2)
  run f { s with trace := s.trace ++ [(tgt, k, pl)] } (.dispatch hs pl)
| Nat.succ _, s, .dispatch [] _ => ok s
| Nat.succ f, s, .dispatch (h :: rest) pl =>
  match run f s (.handler h pl) with
  | (s1, .ok _) => run f s1 (.dispatch rest pl)
  | e => e
| Nat.succ f, s, .handler h pl =>
  match h with
  | .selfFailed c => run f s (.fail c (payloadErr pl))
  | .onParentClose child => swallow (run f s (.close child))
  | .upwardClose p => swallow (run f s (.close p))
  | .relayWarn p => run f s (.emit p .warn pl)
  | .relayInfo p => run f s (.emit p .info pl)
  | .errorToWarn p child =>
      run f s (.emit p .warn
        (.warnP (mkWarnMsg p (some "subcomponent-error") (some child)
          (some (payloadErr pl)) none)))
  | .wrapperCloseOnError w => run f s (.close w)
  | .userThrow => thr s "user handler threw"
  | .userNoop => ok s
| Nat.succ f, s, .fail c e =>
  let s1 :=
    match (s.obj c).rstate with
    | .pending =>
        { s.mod c (fun o => { o with rstate := .failed s.clock e }) with
          clock := s.clock + 1 }
    | _ => s
  run f s1 (.close c)
| Nat.succ f, s, .close c =>
  if (s.obj c).closed then ok s
  else
    let s1 := s.mod c (fun o => { o with closed := true })
    match run f s1 (.emit c .close .unit) with
    | (s2, r) =>
      match cleanup s2 c with
      | (s3, r2) => (s3, mergeFinally r r2)

/-- Model of `emit(event, payload)` on a target object. -/
def emitE (f : Nat) (s : St) (tgt : ObjId) (k : EvKind) (pl : Payload) : Res :=
  run f s (.emit tgt k pl)

/-- Model of `set_failed(err)` / the public `failed(err)`. -/
def setFailed (f : Nat) (s : St) (c : ObjId) (e : Err) : Res :=
  run f s (.fail c e)

/-- The public `close()`. -/
def closeC (f : Nat) (s : St) (c : ObjId) : Res :=
  run f s (.close c)

/-- Public `warn(data)` for an object-shaped payload. -/
def warnC (f : Nat) (s : St) (c : ObjId) (ptype : Option String)
    (origin : Option ObjId) (error : Option Err) (message : Option String) : Res :=
  emitE f s c .warn (.warnP (mkWarnMsg c ptype origin error message))

/-- Aggregation state of a `Promise.all` tree (the value of
`wait_for_ready()`): unsettled, resolved, or rejected with the timestamp
and error of the rejection that settled it. -/
inductive Agg
| pending
| resolved
| rejected (t : Nat) (e : Err)
deriving DecidableEq, Repr

/-- The `Promise.all` pairwise combination: the earliest rejection wins (ties
broken towards the earlier member in array order); otherwise pending wins
over resolved. -/
def Agg.comb : Agg → Agg → Agg
| .rejected t e, .rejected u d => if t ≤ u then .rejected t e else .rejected u d
| .rejected t e, _ => .rejected t e
| _, .rejected u d => .rejected u d
| .pending, _ => .pending
| _, .pending => .pending
| .resolved, .resolved => .resolved

/-- The contribution of a component's own ready promise. -/
def selfAgg (s : St) (c : ObjId) : Agg :=
  match (s.obj c).rstate with
  | .pending => .pending
  | .ready => .resolved
  | .failed t e => .rejected t e

/-- The `wait_for_ready()` recursion
`Promise.all([ready_promise, ...children.map(wait_for_ready)])`, written
as one structurally recursive interpreter: an `inl` job is a component's
`wait_for_ready` call, an `inr` job the spread over a child list.  Fuel
guards against cyclic child graphs; `none` means it ran out. -/
def wfrGo : Nat → St → ObjId ⊕ List ObjId → Option Agg
| 0, _, _ => none
| Nat.succ f, s, .inl c =>
  match wfrGo f s (.inr (s.obj c).children) with
  | none => none
  | some a => some ((selfAgg s c).comb a)
| Nat.succ _, _, .inr [] => some .resolved
| Nat.succ f, s, .inr (c :: rest) =>
  match wfrGo f s (.inl c), wfrGo f s (.inr rest) with
  | some a, some b => some (a.comb b)
  | _, _ => none

/-- Model of `wait_for_ready()` on `c`, read at state `s` (synchronous-settlement
model of the promises). -/
def wfr (f : Nat) (s : St) (c : ObjId) : Option Agg :=
  wfrGo f s (.inl c)

/-- The promise tree captured by a `wait_for_ready()` call: the component
and, frozen at call time, the recursive structure of its children.  The
future returned by `wait_for_ready` keeps these promises even if a member
is later unbound or closed. -/
inductive SnapTree
| node (c : ObjId) (kids : List SnapTree)

/-- The snapshot structure built by `wait_for_ready()`: the spread
`[...components]` freezes each member's child list at call time.  Same
job/fuel discipline as `wfrGo`. -/
def snapGo : Nat → St → ObjId ⊕ List ObjId → Option (SnapTree ⊕ List SnapTree)
| 0, _, _ => none
| Nat.succ f, s, .inl c =>
  match snapGo f s (.inr (s.obj c).children) with
  | some (.inr l) => some (.inl (.node c l))
  | _ => none
| Nat.succ _, _, .inr [] => some (.inr [])
| Nat.succ f, s, .inr (c :: rest) =>
  match snapGo f s (.inl c), snapGo f s (.inr rest) with
  | some (.inl t), some (.inr l) => some (.inr (t :: l))
  | _, _ => none

/-- The promise tree captured by calling `wait_for_ready()` on `c` in
state `s`. -/
def snap (f : Nat) (s : St) (c : ObjId) : Option SnapTree :=
  match snapGo f s (.inl c) with
  | some (.inl t) => some t
  | _ => none

mutual

/-- The members of a captured promise tree: the component itself and every
transitive descendant present at call time. -/
def SnapTree.members : SnapTree → List ObjId
| .node c kids => c :: membersAll kids

/-- Members of a list of captured promise trees. -/
def membersAll : List SnapTree → List ObjId
| [] => []
| t :: rest => t.members ++ membersAll rest

end

mutual

/-- Settlement of a captured `wait_for_ready` future, read against a (possibly
later) state `s`: the `Promise.all` combination of the member promises'
settlement states. -/
def aggAt (s : St) : SnapTree → Agg
| .node c kids => (selfAgg s c).comb (aggListAt s kids)

/-- Settlement of a list of captured futures. -/
def aggListAt (s : St) : List SnapTree → Agg
| [] => .resolved
| t :: rest => (aggAt s t).comb (aggListAt s rest)

end

def Agg.isRejected : Agg → Bool
| .rejected _ _ => true
| _ => false

/-- Call `close()` on `c` a total of `n` times in sequence, each call with
fuel `f`. -/
def closeN (f : Nat) : Nat → St → ObjId → St
| 0, s, _ => s
| Nat.succ n, s, c => closeN f n (closeC f s c).st c

/-- The interpretation of a snapshot-job result as an aggregate. -/
def aggSide (s : St) : SnapTree ⊕ List SnapTree → Agg
| .inl t => aggAt s t
| .inr l => aggListAt s l

/-! ### Renaming of error values

The interpreter never branches on an error value: errors are only stored
(in rejected promises and in payloads) and copied.  Renaming all error
values therefore commutes with `run`, which lets results about a run with
a symbolic error value be read off from a concrete run. -/

/-- Rename the error kept in a rejected ready promise. -/
def eErr (rho : Err → Err) : RState → RState
| .failed t e => .failed t (rho e)
| r => r

/-- Rename the error values in an event payload. -/
def ePay (rho : Err → Err) : Payload → Payload
| .err e => .err (rho e)
| .warnP m => .warnP { m with error := m.error.map rho }
| .infoP m => .infoP { m with error := m.error.map rho }
| .unit => .unit

/-- Rename the error values in an object's state. -/
def eObj (rho : Err → Err) (o : Obj) : Obj :=
  { o with rstate := eErr rho o.rstate }

/-- Rename the error values in a whole state. -/
def eSt (rho : Err → Err) (s : St) : St :=
  { objs := s.objs.map (eObj rho),
    clock := s.clock,
    trace := s.trace.map (fun x => (x.1, x.2.1, ePay rho x.2.2)),
    detachLog := s.detachLog }

/-- Rename the error values in a pending call. -/
def eJob (rho : Err → Err) : Job → Job
| .emit t k pl => .emit t k (ePay rho pl)
| .dispatch hs pl => .dispatch hs (ePay rho pl)
| .handler h pl => .handler h (ePay rho pl)
| .fail c e => .fail c (rho e)
| .close c => .close c

/-- Rename the error values in an outcome. -/
def eRes (rho : Err → Err) (r : Res) : Res := (eSt rho r.1, r.2)

/-! ### Concrete scenario worlds used by the claims -/

/-- Count the emissions of kind `k` on object `c` in a trace. -/
def countEv (tr : List (ObjId × EvKind × Payload)) (c : ObjId) (k : EvKind) : Nat :=
  (tr.filter (fun e => e.1 = c ∧ e.2.1 = k)).length

/-- Count the detachments of child `c` from parent `p`. -/
def countDetach (dl : List (ObjId × ObjId)) (p c : ObjId) : Nat :=
  (dl.filter (fun e => e = (p, c))).length

/-- World for claim C2: a parent `P` (id 0) with a strong-bound child `S`
(id 1) and a weak-bound child `W` (id 2), built through the public API. -/
def stPSW : St :=
  let a := addComponent {} true
  let b := addComponent a.1 true
  let c := addComponent b.1 true
  let r1 := bindC c.1 0 (some 1) false
  let r2 := bindC r1.st 0 (some 2) true
  r2.st

/-- World for claim C3: a chain `G` (id 0) — `P` (id 1) — `C` (id 2); `P`
is strong-bound to `G`, and `C` is bound to `P` weakly iff `cWeak`. -/
def stGPC (cWeak : Bool) : St :=
  let a := addComponent {} true
  let b := addComponent a.1 true
  let c := addComponent b.1 true
  let r1 := bindC c.1 0 (some 1) false
  let r2 := bindC r1.st 1 (some 2) cWeak
  r2.st

/-- World for claims C5 and C7: a parent `P` (id 0) with a weak-bound child
`C` (id 1). -/
def stPC : St :=
  let a := addComponent {} true
  let b := addComponent a.1 true
  let r1 := bindC b.1 0 (some 1) true
  r1.st

/-- World for claim C7: `stPC` with a user 'close' listener on `C` that
throws. -/
def stPCthrow : St := plainOn stPC 1 .close .userThrow

/-- World for claim C9: a root `R` (id 0) with children `A` (id 1) and `B`
(id 2), where `A` has a child `D` (id 3); the three edge strengths are the
parameters. -/
def stRABD (wa wb wd : Bool) : St :=
  let a := addComponent {} true
  let b := addComponent a.1 true
  let c := addComponent b.1 true
  let d := addComponent c.1 true
  let r1 := bindC d.1 0 (some 1) wa
  let r2 := bindC r1.st 0 (some 2) wb
  let r3 := bindC r2.st 1 (some 3) wd
  r3.st

/-- World for claim C10: a component `P` (id 0) and a raw, non-component
event emitter `o` (id 1). -/
def stPRaw : St :=
  let a := addComponent {} true
  (addRawEmitter a.1 false).1

/-- World for claims C1/C4/C6: a single fresh component (id 0), pending. -/
def stSolo : St := (addComponent {} false).1

/-- A single fresh component (id 0) that has already called `ready()`. -/
def stSoloReady : St := setReady stSolo 0

/-- World for the C1 witness: a pending parent (id 0) with one pending
bound child (id 1). -/
def stPCpend : St :=
  let a := addComponent {} false
  let b := addComponent a.1 false
  let r1 := bindC b.1 0 (some 1) false
  r1.st

/-- The same world after the child has called `failed(7)` (at time 0), which
also closed and detached it. -/
def stPCfailed : St := (setFailed 9 stPCpend 1 7).st

/-! ### Helper lemmas: outcomes and the Promise.all combination -/

theorem selfAgg_resolved_iff (s : St) (c : ObjId) :
    selfAgg s c = .resolved ↔ (s.obj c).rstate = .ready := by
  unfold selfAgg
  cases h : (s.obj c).rstate <;> simp

theorem selfAgg_rejected_iff (s : St) (c : ObjId) (u : Nat) (e : Err) :
    selfAgg s c = .rejected u e ↔ (s.obj c).rstate = .failed u e := by
  unfold selfAgg
  cases h : (s.obj c).rstate <;> simp

theorem Agg.comb_eq_resolved_iff (a b : Agg) :
    a.comb b = .resolved ↔ a = .resolved ∧ b = .resolved := by
  cases a <;> cases b <;> simp [Agg.comb]
  split <;> simp

theorem Agg.comb_rej_cases (a b : Agg) (t : Nat) (e : Err)
    (h : a.comb b = .rejected t e) : a = .rejected t e ∨ b = .rejected t e := by
  cases a <;> cases b <;> simp only [Agg.comb] at h <;>
    first
      | exact Or.inl h
      | exact Or.inr h
      | simp at h
      | (split at h
         · exact Or.inl h
         · exact Or.inr h)

theorem Agg.comb_rej_lb (a b : Agg) (t : Nat) (e : Err)
    (h : a.comb b = .rejected t e) :
    (∀ v d, a = .rejected v d → t ≤ v) ∧ (∀ v d, b = .rejected v d → t ≤ v) := by
  cases a <;> cases b <;> simp only [Agg.comb] at h
  all_goals try split at h
  all_goals constructor <;> intro v d2 hvd <;> simp_all <;> omega

theorem Agg.comb_rej_left (a b : Agg) (v : Nat) (d : Err) (h : a = .rejected v d) :
    ∃ u e, a.comb b = .rejected u e := by
  subst h
  cases b <;> simp [Agg.comb]
  split <;> simp

theorem Agg.comb_rej_right (a b : Agg) (v : Nat) (d : Err) (h : b = .rejected v d) :
    ∃ u e, a.comb b = .rejected u e := by
  subst h
  cases a <;> simp [Agg.comb]
  split <;> simp

/-! ### The readiness aggregate of a captured promise tree -/

mutual

theorem aggAt_resolved_iff (s : St) : ∀ t : SnapTree,
    aggAt s t = .resolved ↔ ∀ m ∈ t.members, (s.obj m).rstate = .ready
| .node c kids => by
  simp only [aggAt, SnapTree.members, Agg.comb_eq_resolved_iff, selfAgg_resolved_iff,
    aggListAt_resolved_iff s kids, List.forall_mem_cons]

theorem aggListAt_resolved_iff (s : St) : ∀ ts : List SnapTree,
    aggListAt s ts = .resolved ↔ ∀ m ∈ membersAll ts, (s.obj m).rstate = .ready
| [] => by simp [aggListAt, membersAll]
| t :: rest => by
  simp only [aggListAt, membersAll, Agg.comb_eq_resolved_iff, aggAt_resolved_iff s t,
    aggListAt_resolved_iff s rest, List.mem_append]
  constructor
  · rintro ⟨h1, h2⟩ m hm
    rcases hm with hm | hm
    · exact h1 m hm
    · exact h2 m hm
  · intro h
    exact ⟨fun m hm => h m (Or.inl hm), fun m hm => h m (Or.inr hm)⟩

end

mutual

theorem aggAt_rej_mem (s : St) : ∀ (t : SnapTree) (u : Nat) (e : Err),
    aggAt s t = .rejected u e → ∃ m, m ∈ t.members ∧ (s.obj m).rstate = .failed u e
| .node c kids, u, e => by
  intro h
  simp only [aggAt] at h
  rcases Agg.comb_rej_cases _ _ _ _ h with h1 | h1
  · exact ⟨c, by simp [SnapTree.members], (selfAgg_rejected_iff s c u e).mp h1⟩
  · rcases aggListAt_rej_mem s kids u e h1 with ⟨m, hm, hr⟩
    exact ⟨m, by simp [SnapTree.members, hm], hr⟩

theorem aggListAt_rej_mem (s : St) : ∀ (ts : List SnapTree) (u : Nat) (e : Err),
    aggListAt s ts = .rejected u e → ∃ m, m ∈ membersAll ts ∧ (s.obj m).rstate = .failed u e
| [], u, e => by intro h; simp [aggListAt] at h
| t :: rest, u, e => by
  intro h
  simp only [aggListAt] at h
  rcases Agg.comb_rej_cases _ _ _ _ h with h1 | h1
  · rcases aggAt_rej_mem s t u e h1 with ⟨m, hm, hr⟩
    exact ⟨m, by simp [membersAll, hm], hr⟩
  · rcases aggListAt_rej_mem s rest u e h1 with ⟨m, hm, hr⟩
    exact ⟨m, by simp [membersAll, hm], hr⟩

end

mutual

theorem aggAt_rej_total (s : St) : ∀ (t : SnapTree) (m : ObjId) (v : Nat) (d : Err),
    m ∈ t.members → (s.obj m).rstate = .failed v d → ∃ u e, aggAt s t = .rejected u e
| .node c kids, m, v, d => by
  intro hm hr
  simp only [SnapTree.members, List.mem_cons] at hm
  simp only [aggAt]
  rcases hm with rfl | hm
  · exact Agg.comb_rej_left _ _ v d ((selfAgg_rejected_iff s m v d).mpr hr)
  · rcases aggListAt_rej_total s kids m v d hm hr with ⟨u, e, h⟩
    exact Agg.comb_rej_right _ _ u e h

theorem aggListAt_rej_total (s : St) : ∀ (ts : List SnapTree) (m : ObjId) (v : Nat) (d : Err),
    m ∈ membersAll ts → (s.obj m).rstate = .failed v d → ∃ u e, aggListAt s ts = .rejected u e
| [], m, v, d => by intro hm; simp [membersAll] at hm
| t :: rest, m, v, d => by
  intro hm hr
  simp only [membersAll, List.mem_append] at hm
  simp only [aggListAt]
  rcases hm with hm | hm
  · rcases aggAt_rej_total s t m v d hm hr with ⟨u, e, h⟩
    exact Agg.comb_rej_left _ _ u e h
  · rcases aggListAt_rej_total s rest m v d hm hr with ⟨u, e, h⟩
    exact Agg.comb_rej_right _ _ u e h

end

mutual

theorem aggAt_rej_lb (s : St) : ∀ (t : SnapTree) (u : Nat) (e : Err),
    aggAt s t = .rejected u e →
    ∀ m ∈ t.members, ∀ v d, (s.obj m).rstate = .failed v d → u ≤ v
| .node c kids, u, e => by
  intro h m hm v d hr
  simp only [aggAt] at h
  have hlb := Agg.comb_rej_lb _ _ _ _ h
  simp only [SnapTree.members, List.mem_cons] at hm
  rcases hm with rfl | hm
  · exact hlb.1 v d ((selfAgg_rejected_iff s m v d).mpr hr)
  · rcases aggListAt_rej_total s kids m v d hm hr with ⟨u2, e2, h2⟩
    have := hlb.2 u2 e2 h2
    have := aggListAt_rej_lb s kids u2 e2 h2 m hm v d hr
    omega

theorem aggListAt_rej_lb (s : St) : ∀ (ts : List SnapTree) (u : Nat) (e : Err),
    aggListAt s ts = .rejected u e →
    ∀ m ∈ membersAll ts, ∀ v d, (s.obj m).rstate = .failed v d → u ≤ v
| [], u, e => by intro h; simp [aggListAt] at h
| t :: rest, u, e => by
  intro h m hm v d hr
  simp only [aggListAt] at h
  have hlb := Agg.comb_rej_lb _ _ _ _ h
  simp only [membersAll, List.mem_append] at hm
  rcases hm with hm | hm
  · rcases aggAt_rej_total s t m v d hm hr with ⟨u2, e2, h2⟩
    have := hlb.1 u2 e2 h2
    have := aggAt_rej_lb s t u2 e2 h2 m hm v d hr
    omega
  · rcases aggListAt_rej_total s rest m v d hm hr with ⟨u2, e2, h2⟩
    have := hlb.2 u2 e2 h2
    have := aggListAt_rej_lb s rest u2 e2 h2 m hm v d hr
    omega

end

/-! ### Consistency: the transcription `wfrGo` of wait_for_ready equals the
snapshot aggregation read at the call state -/

/-- The side (component vs. list) of a snapshot job's result matches the
side of the job. -/
theorem snapGo_shape (f : Nat) (s : St) :
    (∀ c r, snapGo f s (.inl c) = some r → ∃ t, r = .inl t) ∧
    (∀ cs r, snapGo f s (.inr cs) = some r → ∃ l, r = .inr l) := by
  induction f with
  | zero => exact ⟨fun c r h => by simp [snapGo] at h, fun cs r h => by simp [snapGo] at h⟩
  | succ f ih =>
    constructor
    · intro c r h
      rw [snapGo] at h
      split at h
      · injection h with h2
        exact ⟨_, h2.symm⟩
      · simp at h
    · intro cs r h
      match cs with
      | [] =>
        rw [snapGo] at h
        exact ⟨[], by simpa using h.symm⟩
      | c :: rest =>
        rw [snapGo] at h
        split at h
        · exact ⟨_, by simpa using h.symm⟩
        · simp at h

theorem wfrGo_eq_snapGo (f : Nat) (s : St) :
    ∀ j, wfrGo f s j = (snapGo f s j).map (aggSide s) := by
  induction f with
  | zero => intro j; simp [wfrGo, snapGo]
  | succ f ih =>
    intro j
    match j with
    | .inl c =>
      rw [wfrGo, snapGo, ih (.inr (s.obj c).children)]
      cases h : snapGo f s (.inr (s.obj c).children) with
      | none => simp
      | some r =>
        rcases (snapGo_shape f s).2 _ _ h with ⟨l, rfl⟩
        simp [aggSide, aggAt]
    | .inr [] => simp [wfrGo, snapGo, aggSide, aggListAt]
    | .inr (c :: rest) =>
      rw [wfrGo, snapGo, ih (.inl c), ih (.inr rest)]
      cases h1 : snapGo f s (.inl c) with
      | none => simp
      | some r1 =>
        rcases (snapGo_shape f s).1 _ _ h1 with ⟨t, rfl⟩
        cases h2 : snapGo f s (.inr rest) with
        | none => simp [aggSide]
        | some r2 =>
          rcases (snapGo_shape f s).2 _ _ h2 with ⟨l, rfl⟩
          simp [aggSide, aggListAt]

/-- The transcription of `wait_for_ready()` read at the call state agrees
with capturing the promise tree and aggregating it at that same state. -/
theorem wfr_eq_snap (f : Nat) (s : St) (c : ObjId) :
    wfr f s c = (snap f s c).map (aggAt s) := by
  rw [wfr, snap, wfrGo_eq_snapGo f s (.inl c)]
  cases h : snapGo f s (.inl c) with
  | none => simp
  | some r =>
    rcases (snapGo_shape f s).1 _ _ h with ⟨t, rfl⟩
    simp [aggSide]

/-! ### State-access lemmas -/

theorem st_thr (s : St) (m : String) : (thr s m).st = s := rfl

theorem st_ok (s : St) : (ok s).st = s := rfl

theorem threw_thr (s : St) (m : String) : (thr s m).threw = true := rfl

theorem threw_ok (s : St) : (ok s).threw = false := rfl

theorem mod_oob (s : St) (i : ObjId) (g : Obj → Obj) (h : ¬ i < s.objs.length) :
    s.mod i g = s := by
  cases s
  simp only [St.mod, St.setObj, St.mk.injEq, and_true, true_and]
  exact List.set_eq_of_length_le (by simpa using Nat.le_of_not_lt h) |>.symm ▸ rfl

theorem obj_mod_self (s : St) (i : ObjId) (g : Obj → Obj) (h : i < s.objs.length) :
    (s.mod i g).obj i = g (s.obj i) := by
  simp [St.mod, St.setObj, St.obj, List.getElem?_set_self', List.getElem?_eq_getElem h]

theorem obj_mod_ne (s : St) (i j : ObjId) (g : Obj → Obj) (h : i ≠ j) :
    (s.mod i g).obj j = s.obj j := by
  simp [St.mod, St.setObj, St.obj, List.getElem?_set_ne h]

theorem bound_mod (s : St) (i j : ObjId) (g : Obj → Obj)
    (hg : ∀ o, (g o).bound = o.bound) :
    ((s.mod i g).obj j).bound = ((s.obj j)).bound := by
  by_cases hij : i = j
  · subst hij
    by_cases hlt : i < s.objs.length
    · rw [obj_mod_self s i g hlt]
      exact hg _
    · rw [mod_oob s i g hlt]
  · rw [obj_mod_ne s i j g hij]

theorem bound_subOn (s : St) (a b : ObjId) (k : EvKind) (h : Handler) (j : ObjId) :
    ((subOn s a b k h).obj j).bound = ((s.obj j)).bound := by
  unfold subOn
  rw [bound_mod, bound_mod] <;> intro o <;> rfl

theorem bound_plainOn (s : St) (b : ObjId) (k : EvKind) (h : Handler) (j : ObjId) :
    ((plainOn s b k h).obj j).bound = ((s.obj j)).bound := by
  unfold plainOn
  rw [bound_mod]
  intro o
  rfl

theorem bound_bindCTP (s : St) (c p : ObjId) (w : Bool) (j : ObjId) :
    ((bindCTP s c p w).obj j).bound = ((s.obj j)).bound := by
  unfold bindCTP
  split_ifs <;> simp only [bound_subOn, bound_plainOn]

theorem obj_append_last (s : St) (o : Obj) :
    (({ s with objs := s.objs ++ [o] } : St).obj s.objs.length) = o := by
  simp [St.obj, List.getElem?_concat_length]

theorem bound_addWrapper (s : St) (c : ObjId) :
    ((addWrapper s c).1.obj (addWrapper s c).2).bound = false := by
  unfold addWrapper
  simp only [addComponent]
  rw [bound_mod]
  · rw [bound_subOn, bound_bindCTP, obj_append_last]
  · intro o
    rfl

/-- A `close()` call on an already-closed component is a no-op: it changes
nothing and returns normally (the guard on the `closed` flag). -/
theorem closeC_closed_noop (f : Nat) (s : St) (c : ObjId)
    (h : (s.obj c).closed = true) : closeC (Nat.succ f) s c = ok s := by
  rw [closeC]
  simp only [run]
  simp [h]

/-- Iterating `close()` any number of times on an already-closed component
leaves the state untouched. -/
theorem closeN_closed (f n : Nat) (s : St) (c : ObjId)
    (h : (s.obj c).closed = true) : closeN (Nat.succ f) n s c = s := by
  induction n with
  | zero => rfl
  | succ n ih =>
    rw [closeN, closeC_closed_noop f s c h]
    exact ih

/-! ### Renaming error values commutes with the interpreter -/

theorem obj_eSt (rho : Err → Err) (s : St) (c : ObjId) :
    (eSt rho s).obj c = eObj rho (s.obj c) := by
  simp only [eSt, St.obj, List.get?_eq_getElem?, List.getElem?_map]
  cases h : s.objs[c]? <;> simp [h, eObj, eErr]

theorem eSt_mod (rho : Err → Err) (s : St) (c : ObjId) (g g2 : Obj → Obj)
    (hg : ∀ o, eObj rho (g o) = g2 (eObj rho o)) :
    eSt rho (s.mod c g) = (eSt rho s).mod c g2 := by
  have h2 := obj_eSt rho s c
  simp only [St.mod, St.setObj, h2]
  simp only [eSt, List.map_set]
  rw [hg]

theorem payloadErr_ePay (rho : Err → Err) (h0 : rho 0 = 0) (pl : Payload) :
    payloadErr (ePay rho pl) = rho (payloadErr pl) := by
  cases pl <;> simp [ePay, payloadErr, h0]

theorem swallow_eRes (rho : Err → Err) (r : Res) :
    swallow (eRes rho r) = eRes rho (swallow r) := rfl

theorem eSt_mod_erase (rho : Err → Err) (s : St) (i : ObjId) (x : EvKind × Handler) :
    eSt rho (s.mod i (fun o => { o with listeners := o.listeners.erase x })) =
    (eSt rho s).mod i (fun o => { o with listeners := o.listeners.erase x }) :=
  eSt_mod rho s i _ _ (fun _ => rfl)

theorem eSt_mod_subsClear (rho : Err → Err) (s : St) (c : ObjId) :
    eSt rho (s.mod c (fun o => { o with subs := ([] : List (ObjId × EvKind × Handler)) })) =
    (eSt rho s).mod c (fun o => { o with subs := ([] : List (ObjId × EvKind × Handler)) }) :=
  eSt_mod rho s c _ _ (fun _ => rfl)

theorem eSt_mod_childErase (rho : Err → Err) (s : St) (p c : ObjId) :
    eSt rho (s.mod p (fun o => { o with children := o.children.erase c })) =
    (eSt rho s).mod p (fun o => { o with children := o.children.erase c }) :=
  eSt_mod rho s p _ _ (fun _ => rfl)

theorem eSt_mod_unbound (rho : Err → Err) (s : St) (c : ObjId) :
    eSt rho (s.mod c (fun o => { o with bound := false, parent := none })) =
    (eSt rho s).mod c (fun o => { o with bound := false, parent := none }) :=
  eSt_mod rho s c _ _ (fun _ => rfl)

theorem eSt_mod_listenersClear (rho : Err → Err) (s : St) (c : ObjId) :
    eSt rho (s.mod c (fun o => { o with listeners := ([] : List (EvKind × Handler)) })) =
    (eSt rho s).mod c (fun o => { o with listeners := ([] : List (EvKind × Handler)) }) :=
  eSt_mod rho s c _ _ (fun _ => rfl)

theorem eSt_mod_closedTrue (rho : Err → Err) (s : St) (c : ObjId) :
    eSt rho (s.mod c (fun o => { o with closed := true })) =
    (eSt rho s).mod c (fun o => { o with closed := true }) :=
  eSt_mod rho s c _ _ (fun _ => rfl)

theorem removeAll_rename (rho : Err → Err) (s : St) (c : ObjId) :
    eSt rho (removeAll s c) = removeAll (eSt rho s) c := by
  unfold removeAll
  exact eSt_mod rho s c _ _ (fun _ => rfl)

theorem foldl_mod_erase_rename (rho : Err → Err) :
    ∀ (entries : List (ObjId × EvKind × Handler)) (s : St),
    eSt rho (entries.foldl
      (fun acc e => acc.mod e.1 (fun o => { o with listeners := o.listeners.erase e.2 })) s) =
    entries.foldl
      (fun acc e => acc.mod e.1 (fun o => { o with listeners := o.listeners.erase e.2 }))
      (eSt rho s)
| [], s => rfl
| e :: rest, s => by
  rw [List.foldl_cons, List.foldl_cons]
  rw [foldl_mod_erase_rename rho rest
    (s.mod e.1 (fun o => { o with listeners := o.listeners.erase e.2 }))]
  rw [eSt_mod_erase]

theorem unsubAll_rename (rho : Err → Err) (s : St) (c : ObjId) :
    eSt rho (unsubAll s c) = unsubAll (eSt rho s) c := by
  have hsubs : ((eSt rho s).obj c).subs = (s.obj c).subs := by
    rw [obj_eSt]
    rfl
  show eSt rho (((s.obj c).subs.foldl
      (fun acc e => acc.mod e.1 (fun o => { o with listeners := o.listeners.erase e.2 })) s).mod c
      (fun o => { o with subs := [] })) =
    (((eSt rho s).obj c).subs.foldl
      (fun acc e => acc.mod e.1 (fun o => { o with listeners := o.listeners.erase e.2 }))
      (eSt rho s)).mod c (fun o => { o with subs := [] })
  rw [hsubs, eSt_mod_subsClear, foldl_mod_erase_rename]

theorem eSt_detach (rho : Err → Err) (s : St) (x : ObjId × ObjId) :
    eSt rho { s with detachLog := s.detachLog ++ [x] } =
    { eSt rho s with detachLog := (eSt rho s).detachLog ++ [x] } := rfl

theorem eRes_ok (rho : Err → Err) (b : St) : eRes rho (ok b) = ok (eSt rho b) := rfl

theorem eRes_thr (rho : Err → Err) (b : St) (m : String) :
    eRes rho (thr b m) = thr (eSt rho b) m := rfl

theorem unbind_rename (rho : Err → Err) (s : St) (p : ObjId) (sub : Option ObjId) :
    unbind (eSt rho s) p sub = eRes rho (unbind s p sub) := by
  cases sub with
  | none => rfl
  | some c =>
    have hch : ((eSt rho s).obj p).children = (s.obj p).children := by
      rw [obj_eSt]
      rfl
    by_cases hc : (s.obj p).children.contains c = true
    · simp only [unbind, hch, hc, if_true, eRes_ok, eSt_detach, eSt_mod_unbound,
        eSt_mod_childErase]
    · simp only [unbind, hch, hc, Bool.false_eq_true, if_false, eRes_thr]

theorem cleanup_rename (rho : Err → Err) (s : St) (c : ObjId) :
    cleanup (eSt rho s) c = eRes rho (cleanup s c) := by
  unfold cleanup
  have hp : ((eSt rho s).obj c).parent = (s.obj c).parent := by
    rw [obj_eSt]
    rfl
  rw [hp]
  cases (s.obj c).parent with
  | none =>
    dsimp only
    rw [eRes_ok, ← removeAll_rename, ← unsubAll_rename]
  | some p =>
    dsimp only
    rw [unbind_rename rho s p (some c)]
    rcases h : unbind s p (some c) with ⟨s1, r⟩
    cases r with
    | ok u =>
      dsimp only [eRes, ok]
      rw [← removeAll_rename, ← unsubAll_rename]
    | error m => rfl

theorem run_rename (rho : Err → Err) (h0 : rho 0 = 0) :
    ∀ (f : Nat) (s : St) (j : Job),
    run f (eSt rho s) (eJob rho j) = eRes rho (run f s j) := by
  intro f
  induction f with
  | zero => intro s j; rfl
  | succ f ih =>
    intro s j
    match j with
    | .emit tgt k pl =>
      rw [eJob]
      rw [show run (Nat.succ f) (eSt rho s) (.emit tgt k (ePay rho pl)) =
        run f { eSt rho s with trace := (eSt rho s).trace ++ [(tgt, k, ePay rho pl)] }
          (.dispatch ((((eSt rho s).obj tgt).listeners.filter
            (fun x => x.1 = k)).map (fun x => x.2)) (ePay rho pl)) from rfl]
      rw [show run (Nat.succ f) s (.emit tgt k pl) =
        run f { s with trace := s.trace ++ [(tgt, k, pl)] }
          (.dispatch ((((s.obj tgt).listeners.filter
            (fun x => x.1 = k)).map (fun x => x.2)) ) pl) from rfl]
      have hl : ((eSt rho s).obj tgt).listeners = (s.obj tgt).listeners := by
        rw [obj_eSt]
        rfl
      rw [hl]
      have hs : ({ eSt rho s with trace := (eSt rho s).trace ++ [(tgt, k, ePay rho pl)] } : St) =
          eSt rho { s with trace := s.trace ++ [(tgt, k, pl)] } := by
        simp [eSt]
      rw [hs]
      exact ih _ (.dispatch _ pl)
    | .dispatch [] pl => rfl
    | .dispatch (h :: rest) pl =>
      rw [eJob]
      rw [show run (Nat.succ f) (eSt rho s) (.dispatch (h :: rest) (ePay rho pl)) =
        (match run f (eSt rho s) (.handler h (ePay rho pl)) with
         | (s1, .ok _) => run f s1 (.dispatch rest (ePay rho pl))
         | e => e) from rfl]
      rw [show run (Nat.succ f) s (.dispatch (h :: rest) pl) =
        (match run f s (.handler h pl) with
         | (s1, .ok _) => run f s1 (.dispatch rest pl)
         | e => e) from rfl]
      rw [show run f (eSt rho s) (.handler h (ePay rho pl)) =
        run f (eSt rho s) (eJob rho (.handler h pl)) from rfl]
      rw [ih s (.handler h pl)]
      rcases hr : run f s (.handler h pl) with ⟨s1, r⟩
      cases r with
      | ok u =>
        simp only [eRes]
        exact ih s1 (.dispatch rest pl)
      | error m => rfl
    | .handler h pl =>
      cases h with
      | selfFailed c =>
        rw [eJob]
        rw [show run (Nat.succ f) (eSt rho s) (.handler (.selfFailed c) (ePay rho pl)) =
          run f (eSt rho s) (.fail c (payloadErr (ePay rho pl))) from rfl]
        rw [show run (Nat.succ f) s (.handler (.selfFailed c) pl) =
          run f s (.fail c (payloadErr pl)) from rfl]
        rw [payloadErr_ePay rho h0 pl]
        exact ih s (.fail c (payloadErr pl))
      | onParentClose child =>
        rw [eJob]
        rw [show run (Nat.succ f) (eSt rho s) (.handler (.onParentClose child) (ePay rho pl)) =
          swallow (run f (eSt rho s) (.close child)) from rfl]
        rw [show run (Nat.succ f) s (.handler (.onParentClose child) pl) =
          swallow (run f s (.close child)) from rfl]
        rw [show run f (eSt rho s) (.close child) =
          run f (eSt rho s) (eJob rho (.close child)) from rfl]
        rw [ih s (.close child), swallow_eRes]
      | upwardClose p =>
        rw [eJob]
        rw [show run (Nat.succ f) (eSt rho s) (.handler (.upwardClose p) (ePay rho pl)) =
          swallow (run f (eSt rho s) (.close p)) from rfl]
        rw [show run (Nat.succ f) s (.handler (.upwardClose p) pl) =
          swallow (run f s (.close p)) from rfl]
        rw [show run f (eSt rho s) (.close p) =
          run f (eSt rho s) (eJob rho (.close p)) from rfl]
        rw [ih s (.close p), swallow_eRes]
      | relayWarn p =>
        rw [eJob]
        rw [show run (Nat.succ f) (eSt rho s) (.handler (.relayWarn p) (ePay rho pl)) =
          run f (eSt rho s) (.emit p .warn (ePay rho pl)) from rfl]
        rw [show run (Nat.succ f) s (.handler (.relayWarn p) pl) =
          run f s (.emit p .warn pl) from rfl]
        exact ih s (.emit p .warn pl)
      | relayInfo p =>
        rw [eJob]
        rw [show run (Nat.succ f) (eSt rho s) (.handler (.relayInfo p) (ePay rho pl)) =
          run f (eSt rho s) (.emit p .info (ePay rho pl)) from rfl]
        rw [show run (Nat.succ f) s (.handler (.relayInfo p) pl) =
          run f s (.emit p .info pl) from rfl]
        exact ih s (.emit p .info pl)
      | errorToWarn p child =>
        rw [eJob]
        rw [show run (Nat.succ f) (eSt rho s) (.handler (.errorToWarn p child) (ePay rho pl)) =
          run f (eSt rho s) (.emit p .warn
            (.warnP (mkWarnMsg p (some "subcomponent-error") (some child)
              (some (payloadErr (ePay rho pl))) none))) from rfl]
        rw [show run (Nat.succ f) s (.handler (.errorToWarn p child) pl) =
          run f s (.emit p .warn
            (.warnP (mkWarnMsg p (some "subcomponent-error") (some child)
              (some (payloadErr pl)) none))) from rfl]
        rw [show (Payload.warnP (mkWarnMsg p (some "subcomponent-error") (some child)
            (some (payloadErr (ePay rho pl))) none)) =
          ePay rho (.warnP (mkWarnMsg p (some "subcomponent-error") (some child)
            (some (payloadErr pl)) none)) from by
            rw [payloadErr_ePay rho h0 pl]
            rfl]
        exact ih s (.emit p .warn _)
      | wrapperCloseOnError w =>
        rw [eJob]
        rw [show run (Nat.succ f) (eSt rho s) (.handler (.wrapperCloseOnError w) (ePay rho pl)) =
          run f (eSt rho s) (.close w) from rfl]
        rw [show run (Nat.succ f) s (.handler (.wrapperCloseOnError w) pl) =
          run f s (.close w) from rfl]
        exact ih s (.close w)
      | userThrow => rfl
      | userNoop => rfl
    | .fail c e =>
      rw [eJob]
      rw [show run (Nat.succ f) (eSt rho s) (.fail c (rho e)) =
        run f (match ((eSt rho s).obj c).rstate with
          | .pending =>
            { (eSt rho s).mod c (fun o => { o with rstate := .failed (eSt rho s).clock (rho e) }) with
              clock := (eSt rho s).clock + 1 }
          | _ => eSt rho s) (.close c) from rfl]
      rw [show run (Nat.succ f) s (.fail c e) =
        run f (match (s.obj c).rstate with
          | .pending =>
            { s.mod c (fun o => { o with rstate := .failed s.clock e }) with
              clock := s.clock + 1 }
          | _ => s) (.close c) from rfl]
      have hr : ((eSt rho s).obj c).rstate = eErr rho (s.obj c).rstate := by
        rw [obj_eSt]
        rfl
      rw [hr]
      cases hc : (s.obj c).rstate with
      | pending =>
        simp only [eErr]
        have hfail : eSt rho (s.mod c (fun o => { o with rstate := .failed s.clock e })) =
            (eSt rho s).mod c (fun o => { o with rstate := .failed s.clock (rho e) }) :=
          eSt_mod rho s c _ _ (fun _ => rfl)
        have hst : ({ (eSt rho s).mod c
              (fun o => { o with rstate := .failed (eSt rho s).clock (rho e) }) with
            clock := (eSt rho s).clock + 1 } : St) =
            eSt rho { s.mod c (fun o => { o with rstate := .failed s.clock e }) with
              clock := s.clock + 1 } := by
          calc ({ (eSt rho s).mod c
                (fun o => { o with rstate := .failed (eSt rho s).clock (rho e) }) with
              clock := (eSt rho s).clock + 1 } : St)
              = St.mk
                  ((eSt rho s).mod c (fun o => { o with rstate := .failed s.clock (rho e) })).objs
                  (s.clock + 1)
                  ((eSt rho s).mod c (fun o => { o with rstate := .failed s.clock (rho e) })).trace
                  ((eSt rho s).mod c
                    (fun o => { o with rstate := .failed s.clock (rho e) })).detachLog := rfl
            _ = St.mk
                  (eSt rho (s.mod c (fun o => { o with rstate := .failed s.clock e }))).objs
                  (s.clock + 1)
                  (eSt rho (s.mod c (fun o => { o with rstate := .failed s.clock e }))).trace
                  (eSt rho
                    (s.mod c (fun o => { o with rstate := .failed s.clock e }))).detachLog := by
                rw [← hfail]
            _ = eSt rho { s.mod c (fun o => { o with rstate := .failed s.clock e }) with
                  clock := s.clock + 1 } := rfl
        rw [hst]
        exact ih _ (.close c)
      | ready =>
        simp only [eErr]
        exact ih s (.close c)
      | failed t e2 =>
        simp only [eErr]
        exact ih s (.close c)
    | .close c =>
      rw [eJob]
      have hcl : ((eSt rho s).obj c).closed = (s.obj c).closed := by
        rw [obj_eSt]
        rfl
      by_cases hc : (s.obj c).closed = true
      · rw [show run (Nat.succ f) (eSt rho s) (.close c) =
          (if ((eSt rho s).obj c).closed then ok (eSt rho s) else
            (let s1 := (eSt rho s).mod c (fun o => { o with closed := true })
             match run f s1 (.emit c .close .unit) with
             | (s2, r) =>
               match cleanup s2 c with
               | (s3, r2) => (s3, mergeFinally r r2))) from rfl]
        rw [show run (Nat.succ f) s (.close c) =
          (if (s.obj c).closed then ok s else
            (let s1 := s.mod c (fun o => { o with closed := true })
             match run f s1 (.emit c .close .unit) with
             | (s2, r) =>
               match cleanup s2 c with
               | (s3, r2) => (s3, mergeFinally r r2))) from rfl]
        rw [hcl]
        simp only [hc, if_true, eRes_ok]
      · rw [show run (Nat.succ f) (eSt rho s) (.close c) =
          (if ((eSt rho s).obj c).closed then ok (eSt rho s) else
            (let s1 := (eSt rho s).mod c (fun o => { o with closed := true })
             match run f s1 (.emit c .close .unit) with
             | (s2, r) =>
               match cleanup s2 c with
               | (s3, r2) => (s3, mergeFinally r r2))) from rfl]
        rw [show run (Nat.succ f) s (.close c) =
          (if (s.obj c).closed then ok s else
            (let s1 := s.mod c (fun o => { o with closed := true })
             match run f s1 (.emit c .close .unit) with
             | (s2, r) =>
               match cleanup s2 c with
               | (s3, r2) => (s3, mergeFinally r r2))) from rfl]
        rw [hcl]
        simp only [hc, if_false, Bool.false_eq_true]
        have hmod : (eSt rho s).mod c (fun o => { o with closed := true }) =
            eSt rho (s.mod c (fun o => { o with closed := true })) :=
          (eSt_mod_closedTrue rho s c).symm
        rw [hmod]
        rw [show run f (eSt rho (s.mod c (fun o => { o with closed := true })))
            (.emit c .close .unit) =
          run f (eSt rho (s.mod c (fun o => { o with closed := true })))
            (eJob rho (.emit c .close .unit)) from rfl]
        rw [ih _ (.emit c .close .unit)]
        rcases hr2 : run f (s.mod c (fun o => { o with closed := true }))
          (.emit c .close .unit) with ⟨s2, r⟩
        simp only [eRes]
        rw [cleanup_rename rho s2 c]
        rcases hr3 : cleanup s2 c with ⟨s3, r2⟩
        rfl

/-! ### The claims -/

/-- C1: for every component, `wait_for_ready()` returns a future that
settles to ready only when the component itself and every transitive
descendant present at call time (the members of the promise tree `t`
captured by `snap` at the call state `s`) have all become ready, and that
rejects with the error of the first member of that set to fail: read
against any settlement state `s2`, the aggregate is resolved exactly when
every member's promise is resolved, and if a member failed at time `t0`
with error `e0`, strictly before every other failed member, the aggregate
is rejected with `e0`. -/
theorem c1_wait_for_ready_aggregate (f : Nat) (s : St) (c : ObjId) (t : SnapTree)
    (_ht : snap f s c = some t) (s2 : St) :
    (aggAt s2 t = .resolved ↔ ∀ m ∈ t.members, (s2.obj m).rstate = .ready) ∧
    (∀ m t0 e0, m ∈ t.members → (s2.obj m).rstate = .failed t0 e0 →
      (∀ m2 t2 e2, m2 ∈ t.members → (s2.obj m2).rstate = .failed t2 e2 → m2 ≠ m → t0 < t2) →
      aggAt s2 t = .rejected t0 e0) := by
  refine ⟨aggAt_resolved_iff s2 t, ?_⟩
  intro m t0 e0 hm hr hmin
  rcases aggAt_rej_total s2 t m t0 e0 hm hr with ⟨u, e, hu⟩
  rcases aggAt_rej_mem s2 t u e hu with ⟨m2, hm2, hr2⟩
  have hle : u ≤ t0 := aggAt_rej_lb s2 t u e hu m hm t0 e0 hr
  by_cases hmm : m2 = m
  · subst hmm
    rw [hr] at hr2
    injection hr2 with h1 h2
    subst h1
    subst h2
    exact hu
  · have := hmin m2 u e hm2 hr2 hmm
    omega

/-- C1 witness: in the world of a pending parent (0) over a pending bound
child (1), the snapshot captured by `wait_for_ready()` on the parent is
`node 0 [node 1 []]`; after the child calls `failed(7)` at time 0 the
aggregate read at the new state is rejected with error 7. -/
theorem c1_witness :
    aggAt stPCfailed (.node 0 [.node 1 []]) = .rejected 0 7 := by
  have h := c1_wait_for_ready_aggregate 5 stPCpend 0 (.node 0 [.node 1 []]) rfl stPCfailed
  refine h.2 1 0 7 (by decide) (by decide) ?_
  intro m2 t2 e2 hm2 hr2 hne
  have hm2e : m2 = 0 ∨ m2 = 1 := by
    simpa [SnapTree.members, membersAll] using hm2
  rcases hm2e with rfl | rfl
  · have hp : (stPCfailed.obj 0).rstate = .pending := by decide
    rw [hp] at hr2
    exact absurd hr2 (by simp)
  · exact absurd rfl hne

/-- C4 counterexample: a component (id 0) whose readiness is pending is
closed with `close()`; the readiness promise stays pending, so the captured
`wait_for_ready` aggregate remains unsettled (neither resolved nor
rejected) — it does not reject as the claim states. -/
theorem c4_counterexample :
    snap 5 stSolo 0 = some (.node 0 []) ∧
    ((closeC 50 stSolo 0).st.obj 0).closed = true ∧
    ((closeC 50 stSolo 0).st.obj 0).rstate = .pending ∧
    aggAt (closeC 50 stSolo 0).st (.node 0 []) = .pending ∧
    (aggAt (closeC 50 stSolo 0).st (.node 0 [])).isRejected = false :=
  ⟨rfl, rfl, rfl, rfl, rfl⟩

/-- C4 amended: calling `close()` on a component whose readiness is still
pending does not settle the readiness promise at all — an outstanding or
subsequent `wait_for_ready()` future stays forever pending (it neither
resolves nor rejects).  Only the `failed(err)` path (which itself calls
`close()`) rejects the aggregate; a plain `close()` produces a hang, not a
closed-without-ever-ready rejection. -/
theorem c4_close_pending_never_settles (e : Err) :
    snap 5 stSolo 0 = some (.node 0 []) ∧
    ((closeC 50 stSolo 0).st.obj 0).closed = true ∧
    ((closeC 50 stSolo 0).st.obj 0).rstate = .pending ∧
    aggAt (closeC 50 stSolo 0).st (.node 0 []) = .pending ∧
    ((setFailed 50 stSolo 0 e).st.obj 0).closed = true ∧
    ((setFailed 50 stSolo 0 e).st.obj 0).rstate = .failed 0 e ∧
    aggAt (setFailed 50 stSolo 0 e).st (.node 0 []) = .rejected 0 e :=
  ⟨rfl, rfl, rfl, rfl, rfl, rfl, rfl⟩

/-- C6 counterexample: on a component that already called `ready()`,
`failed(5)` does not reject the readiness aggregate — the promise has
already settled to ready (single-settle), so the aggregate stays resolved;
only the `close()` side effect happens. -/
theorem c6_counterexample :
    (stSoloReady.obj 0).rstate = .ready ∧
    ((setFailed 50 stSoloReady 0 5).st.obj 0).rstate = .ready ∧
    aggAt (setFailed 50 stSoloReady 0 5).st (.node 0 []) = .resolved ∧
    (aggAt (setFailed 50 stSoloReady 0 5).st (.node 0 [])).isRejected = false ∧
    ((setFailed 50 stSoloReady 0 5).st.obj 0).closed = true :=
  ⟨rfl, rfl, rfl, rfl, rfl⟩

/-- C6 amended: `failed(err)` always invokes `close()` on the component;
it rejects the readiness aggregate with `err` only when the readiness is
still pending — if `ready()` was called first the already-resolved promise
is unaffected (rejection is a no-op on a settled promise).  An 'error'
event emitted on the component itself triggers `failed` with exactly the
same effect on the component's state in both situations. -/
theorem c6_failed_rejects_only_pending (e : Err) :
    ((setFailed 50 stSolo 0 e).st.obj 0).rstate = .failed 0 e ∧
    ((setFailed 50 stSolo 0 e).st.obj 0).closed = true ∧
    ((setFailed 50 stSoloReady 0 e).st.obj 0).rstate = .ready ∧
    ((setFailed 50 stSoloReady 0 e).st.obj 0).closed = true ∧
    (emitE 50 stSolo 0 .error (.err e)).st.obj 0 = (setFailed 50 stSolo 0 e).st.obj 0 ∧
    (emitE 50 stSoloReady 0 .error (.err e)).st.obj 0 = (setFailed 50 stSoloReady 0 e).st.obj 0 :=
  ⟨rfl, rfl, rfl, rfl, rfl, rfl⟩

/-- C2: in the world `stPSW` of a parent `P` (0) with a strong-bound child
`S` (1) and a weak-bound child `W` (2): closing `S` closes `P` (upward
cascade on the strong edge) and hence `W` (downward cascade); closing `W`
closes neither `P` nor `S`; and closing `P` closes both `S` and `W`,
regardless of edge strength. -/
theorem c2_close_cascade_strength :
    (((closeC 50 stPSW 1).st.obj 0).closed = true ∧
     ((closeC 50 stPSW 1).st.obj 2).closed = true ∧
     ((closeC 50 stPSW 1).st.obj 1).closed = true) ∧
    (((closeC 50 stPSW 2).st.obj 0).closed = false ∧
     ((closeC 50 stPSW 2).st.obj 1).closed = false ∧
     ((closeC 50 stPSW 2).st.obj 2).closed = true) ∧
    (((closeC 50 stPSW 0).st.obj 1).closed = true ∧
     ((closeC 50 stPSW 0).st.obj 2).closed = true) :=
  ⟨⟨rfl, rfl, rfl⟩, ⟨rfl, rfl, rfl⟩, rfl, rfl⟩

/-- C3 counterexample: in the chain `G` (0) — `P` (1) — strong-bound `C`
(2), an 'error' event on `C` first triggers `C`'s own
`error → failed → close` handler, whose strong upward cascade closes `P`
and strips `P`'s listeners; the reclassified warn emitted on `P` afterwards
therefore never reaches `G` — no warn event is ever observed at the
grandparent, refuting "at each further ancestor it is relayed". -/
theorem c3_counterexample :
    ((stGPC false).obj 2).parent = some 1 ∧
    ((stGPC false).obj 1).parent = some 0 ∧
    countEv (emitE 60 (stGPC false) 2 .error (.err 7)).st.trace 1 .warn = 1 ∧
    countEv (emitE 60 (stGPC false) 2 .error (.err 7)).st.trace 0 .warn = 0 :=
  ⟨rfl, rfl, rfl, rfl⟩

/-- C3 amended: an 'error' event with value `e` on a bound child `C` is
reclassified as a 'warn' on its parent `P` with payload
`{type: 'subcomponent-error', source: P, origin: C, error: e}`, and no
ancestor ever observes it as a raw 'error' event.  When `C` is weak-bound,
the warn is relayed unchanged to each further ancestor (here `G`).  When
`C` is strong-bound, `C`'s own `error → failed → close` handler runs first
and its upward cascade closes `P` (removing `P`'s listeners), so the
reclassified warn is still emitted on `P` but is observed by no further
ancestor.  The two full event traces: -/
theorem c3_error_reclassification (e : Err) :
    (emitE 60 (stGPC true) 2 .error (.err e)).st.trace =
      [(2, .error, .err e), (2, .close, .unit),
       (1, .warn, .warnP { ptype := "subcomponent-error", source := some 1,
                           origin := some 2, error := some e }),
       (0, .warn, .warnP { ptype := "subcomponent-error", source := some 1,
                           origin := some 2, error := some e })] ∧
    (emitE 60 (stGPC false) 2 .error (.err e)).st.trace =
      [(2, .error, .err e), (2, .close, .unit), (1, .close, .unit), (0, .close, .unit),
       (1, .warn, .warnP { ptype := "subcomponent-error", source := some 1,
                           origin := some 2, error := some e })] ∧
    ((emitE 60 (stGPC false) 2 .error (.err e)).st.obj 1).closed = true ∧
    ((emitE 60 (stGPC false) 2 .error (.err e)).st.obj 1).listeners = [] := by
  have h0 : (fun x => if x = 1 then e else x) 0 = 0 := by simp
  have hw := run_rename (fun x => if x = 1 then e else x) h0 60 (stGPC true)
    (.emit 2 .error (.err 1))
  have hs := run_rename (fun x => if x = 1 then e else x) h0 60 (stGPC false)
    (.emit 2 .error (.err 1))
  rw [show eSt (fun x => if x = 1 then e else x) (stGPC true) = stGPC true from rfl,
    show eJob (fun x => if x = 1 then e else x) (.emit 2 .error (.err 1)) =
      .emit 2 .error (.err e) from by simp [eJob, ePay]] at hw
  rw [show eSt (fun x => if x = 1 then e else x) (stGPC false) = stGPC false from rfl,
    show eJob (fun x => if x = 1 then e else x) (.emit 2 .error (.err 1)) =
      .emit 2 .error (.err e) from by simp [eJob, ePay]] at hs
  refine ⟨?_, ?_, ?_, ?_⟩
  · show (run 60 (stGPC true) (.emit 2 .error (.err e))).st.trace = _
    rw [hw]
    show ((run 60 (stGPC true) (.emit 2 .error (.err 1))).st.trace.map
      (fun x => (x.1, x.2.1, ePay (fun x => if x = 1 then e else x) x.2.2))) = _
    rw [show (run 60 (stGPC true) (.emit 2 .error (.err 1))).st.trace =
      [(2, .error, .err 1), (2, .close, .unit),
       (1, .warn, .warnP { ptype := "subcomponent-error", source := some 1,
                           origin := some 2, error := some 1 }),
       (0, .warn, .warnP { ptype := "subcomponent-error", source := some 1,
                           origin := some 2, error := some 1 })] from rfl]
    simp [ePay]
  · show (run 60 (stGPC false) (.emit 2 .error (.err e))).st.trace = _
    rw [hs]
    show ((run 60 (stGPC false) (.emit 2 .error (.err 1))).st.trace.map
      (fun x => (x.1, x.2.1, ePay (fun x => if x = 1 then e else x) x.2.2))) = _
    rw [show (run 60 (stGPC false) (.emit 2 .error (.err 1))).st.trace =
      [(2, .error, .err 1), (2, .close, .unit), (1, .close, .unit), (0, .close, .unit),
       (1, .warn, .warnP { ptype := "subcomponent-error", source := some 1,
                           origin := some 2, error := some 1 })] from rfl]
    simp [ePay]
  · show ((run 60 (stGPC false) (.emit 2 .error (.err e))).st.obj 1).closed = true
    rw [hs]
    show ((eSt _ (run 60 (stGPC false) (.emit 2 .error (.err 1))).st).obj 1).closed = true
    rw [obj_eSt]
    rfl
  · show ((run 60 (stGPC false) (.emit 2 .error (.err e))).st.obj 1).listeners = []
    rw [hs]
    show ((eSt _ (run 60 (stGPC false) (.emit 2 .error (.err 1))).st).obj 1).listeners = []
    rw [obj_eSt]
    rfl

/-- C5: in the world `stPC` of a parent `P` (0) with a weak-bound child `C`
(1), calling `close()` on `C` a total of `N ≥ 1` times emits the 'close'
event exactly once and detaches `C` from `P` exactly once; every call after
the first is a no-op (the state after `N` calls equals the state after the
first). -/
theorem c5_close_idempotent (N : Nat) (h : 1 ≤ N) :
    countEv (closeN 50 N stPC 1).trace 1 .close = 1 ∧
    countDetach (closeN 50 N stPC 1).detachLog 0 1 = 1 ∧
    closeN 50 N stPC 1 = (closeC 50 stPC 1).st := by
  obtain ⟨n, rfl⟩ : ∃ n, N = n + 1 := ⟨N - 1, by omega⟩
  have h1 : closeN 50 (n + 1) stPC 1 = (closeC 50 stPC 1).st := by
    rw [closeN]
    exact closeN_closed 49 n _ 1 (by decide)
  rw [h1]
  exact ⟨rfl, rfl, rfl⟩

/-- C5 witness: three `close()` calls on the child behave as one. -/
theorem c5_witness :
    countEv (closeN 50 3 stPC 1).trace 1 .close = 1 ∧
    countDetach (closeN 50 3 stPC 1).detachLog 0 1 = 1 ∧
    closeN 50 3 stPC 1 = (closeC 50 stPC 1).st :=
  c5_close_idempotent 3 (by decide)

/-- C7: in the world `stPCthrow` (parent `P` (0), weak-bound child `C` (1),
plus a user 'close' listener on `C` that throws), `close()` on `C` emits
the 'close' event (it lands in the trace and the thrown exception
propagates out of `close`), and the finally-guaranteed cleanup still runs
afterwards: `C` is detached from `P` exactly once, every listener on `C`
is removed, and every subscription `C` made through the Subscription
Registry is released (in particular `P`'s listener list no longer holds
`C`'s downward close relay). -/
theorem c7_close_cleanup_after_dispatch :
    (closeC 50 stPCthrow 1).threw = true ∧
    ((closeC 50 stPCthrow 1).st.obj 1).parent = none ∧
    ((closeC 50 stPCthrow 1).st.obj 0).children = [] ∧
    ((closeC 50 stPCthrow 1).st.obj 1).listeners = [] ∧
    ((closeC 50 stPCthrow 1).st.obj 1).subs = [] ∧
    ((closeC 50 stPCthrow 1).st.obj 0).listeners = [(.error, .selfFailed 0)] ∧
    (closeC 50 stPCthrow 1).st.trace = [(1, .close, .unit)] ∧
    countDetach (closeC 50 stPCthrow 1).st.detachLog 0 1 = 1 :=
  ⟨rfl, rfl, rfl, rfl, rfl, rfl, rfl, rfl⟩

/-- C9: in the world `stRABD` (root `R` (0) with children `A` (1), `B` (2),
and grandchild `D` (3) under `A`), for every combination of edge
strengths, after `R.close()` completes the child sets of `R` and `A` are
empty, every descendant is closed, and each closing child removed itself
from its parent's child set exactly once. -/
theorem c9_close_empties_children (wa wb wd : Bool) :
    ((closeC 80 (stRABD wa wb wd) 0).st.obj 0).children = [] ∧
    ((closeC 80 (stRABD wa wb wd) 0).st.obj 1).children = [] ∧
    ((closeC 80 (stRABD wa wb wd) 0).st.obj 1).closed = true ∧
    ((closeC 80 (stRABD wa wb wd) 0).st.obj 2).closed = true ∧
    ((closeC 80 (stRABD wa wb wd) 0).st.obj 3).closed = true ∧
    countDetach (closeC 80 (stRABD wa wb wd) 0).st.detachLog 0 1 = 1 ∧
    countDetach (closeC 80 (stRABD wa wb wd) 0).st.detachLog 0 2 = 1 ∧
    countDetach (closeC 80 (stRABD wa wb wd) 0).st.detachLog 1 3 = 1 := by
  cases wa <;> cases wb <;> cases wd <;>
    exact ⟨rfl, rfl, rfl, rfl, rfl, rfl, rfl, rfl⟩

/-- C10: binding a raw non-component emitter `o` (1) to a component `P`
(0) with any `weak` flag promotes `o` via the Wrapper Adapter: a fresh,
already-ready component (2) with `o` as its target is bound to `P`, and
the recursive `bind(new ComponentWrapper(sub))` call drops the `weak`
flag, so the wrapper is strong-bound — its listener list carries the
upward close relay, and closing the wrapper closes `P` even when
`weak = true` was requested. -/
theorem c10_wrapper_ignores_weak (weak : Bool) :
    (bindC stPRaw 0 (some 1) weak).threw = false ∧
    ((bindC stPRaw 0 (some 1) weak).st.obj 0).children = [2] ∧
    ((bindC stPRaw 0 (some 1) weak).st.obj 2).isComponent = true ∧
    ((bindC stPRaw 0 (some 1) weak).st.obj 2).rstate = .ready ∧
    ((bindC stPRaw 0 (some 1) weak).st.obj 2).parent = some 0 ∧
    ((bindC stPRaw 0 (some 1) weak).st.obj 2).target = some 1 ∧
    ((bindC stPRaw 0 (some 1) weak).st.obj 2).listeners.contains
      (.close, .upwardClose 0) = true ∧
    ((closeC 50 (bindC stPRaw 0 (some 1) weak).st 2).st.obj 0).closed = true := by
  cases weak <;> exact ⟨rfl, rfl, rfl, rfl, rfl, rfl, rfl, rfl⟩

/-- C8: for every state, parent and argument, `bind(child)` throws exactly
when `child` is null/undefined or `child` carries the component contract
and is already bound to a parent (a non-component argument is wrapped and
never rejected), and `unbind(child)` throws whenever `child` is null or
not a current member of the parent's child set; in every failing case the
parent's child set is left unchanged. -/
theorem c8_bind_unbind_contract (s : St) (p : ObjId) (c? : Option ObjId) (weak : Bool) :
    ((bindC s p c? weak).threw = true ↔
      (c? = none ∨ ∃ c, c? = some c ∧ (s.obj c).isComponent = true ∧ (s.obj c).bound = true)) ∧
    ((bindC s p c? weak).threw = true →
      ((bindC s p c? weak).st.obj p).children = (s.obj p).children) ∧
    ((c? = none ∨ ∃ c, c? = some c ∧ (s.obj p).children.contains c = false) →
      (unbind s p c?).threw = true ∧ ((unbind s p c?).st.obj p).children = (s.obj p).children) := by
  refine ⟨?_, ?_, ?_⟩
  · cases c? with
    | none => simp [bindC, thr, Res.threw]
    | some c =>
      by_cases hic : (s.obj c).isComponent = true
      · by_cases hb : (s.obj c).bound = true
        · simp [bindC, hic, bindComponentPath, hb, thr, Res.threw]
        · simp [bindC, hic, bindComponentPath, hb, ok, Res.threw]
      · have hbw := bound_addWrapper s c
        simp [bindC, hic, bindComponentPath, hbw, ok, Res.threw]
  · cases c? with
    | none => intro _; simp [bindC, thr, Res.st]
    | some c =>
      by_cases hic : (s.obj c).isComponent = true
      · by_cases hb : (s.obj c).bound = true
        · intro _; simp [bindC, hic, bindComponentPath, hb, thr, Res.st]
        · simp [bindC, hic, bindComponentPath, hb, ok, Res.threw]
      · have hbw := bound_addWrapper s c
        simp [bindC, hic, bindComponentPath, hbw, ok, Res.threw]
  · intro h
    cases c? with
    | none => simp [unbind, thr, Res.threw, Res.st]
    | some c =>
      rcases h with h | ⟨c2, hc2, hcont⟩
      · exact absurd h (by simp)
      · injection hc2 with hcc
        subst hcc
        unfold unbind
        simp only [hcont, Bool.false_eq_true, if_false]
        exact ⟨rfl, rfl⟩

/-- C8 witness: in `stPSW`, binding the already-bound child 1 throws and
leaves the parent's child set unchanged, and unbinding the non-member 3
throws. -/
theorem c8_witness :
    (bindC stPSW 0 (some 1) false).threw = true ∧
    ((bindC stPSW 0 (some 1) false).st.obj 0).children = (stPSW.obj 0).children ∧
    (unbind stPSW 0 (some 3)).threw = true := by
  have h1 := c8_bind_unbind_contract stPSW 0 (some 1) false
  have h2 := c8_bind_unbind_contract stPSW 0 (some 3) false
  have hthrew : (bindC stPSW 0 (some 1) false).threw = true :=
    h1.1.mpr (Or.inr ⟨1, rfl, by decide, by decide⟩)
  exact ⟨hthrew, h1.2.1 hthrew, (h2.2.2 (Or.inr ⟨3, rfl, by decide⟩)).1⟩

end ComponentJS
